import Mathlib

/-!
Verification of the IPPcode24 parser (src/parse.py).

The Python source is shallowly embedded below: regexes become executable
character-list matchers, the global `stats` / `order` state becomes explicit
state passing, and `sys.exit(n)` becomes an `Except PErr` error value whose
`errCode` is the exit status.  Python dicts (which preserve insertion order)
become association lists with explicit lookup/update helpers.
-/

/-- Python `\s` (ASCII part), as used by `str.strip`, `str.split` and the
`re` character class `\s` in src/parse.py. -/
def isPyWS (c : Char) : Bool :=
  c = ' ' || c = '\t' || c = '\n' || c = '\r' || c = '\x0b' || c = '\x0c'

/-- Python `str.strip()` on the characters of a line: drop leading and
trailing whitespace. -/
def pyStrip (cs : List Char) : List Char := (cs.dropWhile isPyWS).rdropWhile isPyWS

/-- Python `str.split()` (split on whitespace runs, discarding empties);
auxiliary accumulating the current token reversed. -/
def pySplitAux (cur : List Char) : List Char → List (List Char)
  | [] => if cur.isEmpty then [] else [cur.reverse]
  | c :: rest =>
    if isPyWS c then
      if cur.isEmpty then pySplitAux [] rest
      else cur.reverse :: pySplitAux [] rest
    else pySplitAux (c :: cur) rest

/-- Python `str.split()` with no separator argument. -/
def pySplit (cs : List Char) : List (List Char) := pySplitAux [] cs

/-- Python `line.split('#', 1)`: text before the first `#`, and
`some` remainder when a `#` occurred. -/
def splitHash : List Char → List Char × Option (List Char)
  | [] => ([], none)
  | c :: rest =>
    if c = '#' then ([], some rest)
    else
      let p := splitHash rest
      (c :: p.1, p.2)

/-- Python `s.split(sep)` for a one-character separator (used for `'='`). -/
def splitOnChar (sep : Char) : List Char → List (List Char)
  | [] => [[]]
  | c :: rest =>
    let p := splitOnChar sep rest
    if c = sep then [] :: p
    else
      match p with
      | [] => [[c]]
      | q :: qs => (c :: q) :: qs

/-- Strip a literal leading character sequence, `some` the remainder on
success (used to model `str.startswith` plus prefix removal). -/
def stripLead : List Char → List Char → Option (List Char)
  | [], l => some l
  | _ :: _, [] => none
  | p :: ps, c :: cs => if c = p then stripLead ps cs else none

/-- Identifier start class of the regexes `VAR` and `LABEL`:
`[a-zA-Z_\-&%*$!?]`. -/
def isIdentStart (c : Char) : Bool :=
  c.isAlpha || c = '_' || c = '-' || c = '&' || c = '%' || c = '*' ||
  c = '$' || c = '!' || c = '?'

/-- Identifier continuation class: `[a-zA-Z0-9_\-&%*$!?]`. -/
def isIdentCont (c : Char) : Bool :=
  c.isAlphanum || c = '_' || c = '-' || c = '&' || c = '%' || c = '*' ||
  c = '$' || c = '!' || c = '?'

/-- `re.fullmatch` of `LABEL = [a-zA-Z_\-&%*$!?][a-zA-Z0-9_\-&%*$!?]*`. -/
def matchIdent : List Char → Bool
  | [] => false
  | c :: rest => isIdentStart c && rest.all isIdentCont

/-- Body of `INT_CONST` after `int@`: `[-+]?\d+`. -/
def matchIntBody (l : List Char) : Bool :=
  match l with
  | '-' :: rest => !rest.isEmpty && rest.all Char.isDigit
  | '+' :: rest => !rest.isEmpty && rest.all Char.isDigit
  | _ => !l.isEmpty && l.all Char.isDigit

/-- `re.fullmatch` of `INT_CONST = int@[-+]?\d+`. -/
def matchInt (cs : List Char) : Bool :=
  match stripLead ("int@".data) cs with
  | some body => matchIntBody body
  | none => false

/-- `re.fullmatch` of `BOOL_CONST = bool@(true|false)`. -/
def matchBool (cs : List Char) : Bool :=
  match stripLead ("bool@".data) cs with
  | some body => body = "true".data || body = "false".data
  | none => false

/-- Character class `[^#\s\\]` of `STRING_CONST`. -/
def isStringChar (c : Char) : Bool :=
  !(c = '#') && !isPyWS c && !(c = '\\')

/-- Body of `STRING_CONST` after `string@`:
`[^#\s\\]*(?:\\[\d]{3}[^#\s\\]*)*`, i.e. every backslash must be followed
by exactly three digits. -/
def matchStringBody : List Char → Bool
  | [] => true
  | '\\' :: d1 :: d2 :: d3 :: rest =>
    d1.isDigit && d2.isDigit && d3.isDigit && matchStringBody rest
  | c :: rest => isStringChar c && matchStringBody rest

/-- `re.fullmatch` of `STRING_CONST = string@[^#\s\\]*(?:\\[\d]{3}[^#\s\\]*)*`. -/
def matchStringConst (cs : List Char) : Bool :=
  match stripLead ("string@".data) cs with
  | some body => matchStringBody body
  | none => false

/-- `re.fullmatch` of `NIL_CONST = nil@nil`. -/
def matchNil (cs : List Char) : Bool := cs = "nil@nil".data

/-- The combined constant pattern
`(NIL_CONST|INT_CONST|BOOL_CONST|STRING_CONST)` built in `match_pattern`. -/
def matchConst (cs : List Char) : Bool :=
  matchNil cs || matchInt cs || matchBool cs || matchStringConst cs

/-- `re.fullmatch` of `TYPE = (int|bool|string)`. -/
def matchType (cs : List Char) : Bool :=
  cs = "int".data || cs = "bool".data || cs = "string".data

/-- `re.fullmatch` of `VAR = (LF|TF|GF)@ident`. -/
def matchVar (cs : List Char) : Bool :=
  match cs with
  | f1 :: f2 :: '@' :: rest =>
    (f1 = 'L' || f1 = 'T' || f1 = 'G') && f2 = 'F' && matchIdent rest
  | _ => false

/-- `Token` class of src/parse.py. -/
structure Token where
  token_type : String
  token_value : String
deriving Repr, DecidableEq

/-- The error exits of src/parse.py, one constructor per distinct
`sys.exit` site kind; `indexErr` and `decodeErr` stand for uncaught Python
exceptions (`IndexError`, `UnboundLocalError`). -/
inductive PErr where
  | patternMismatch
  | unknownOpcode
  | unknownOpcodeLate
  | arityFew
  | arityMany
  | roleMismatch (role : String)
  | duplicateLabel
  | headerError
  | usageErr
  | configErr
  | indexErr
  | decodeErr
deriving Repr, DecidableEq

/-- Process exit status of each error (uncaught exceptions exit 1). -/
def errCode : PErr → Nat
  | PErr.patternMismatch => 23
  | PErr.unknownOpcode => 22
  | PErr.unknownOpcodeLate => 23
  | PErr.arityFew => 23
  | PErr.arityMany => 23
  | PErr.roleMismatch _ => 23
  | PErr.duplicateLabel => 23
  | PErr.headerError => 22
  | PErr.usageErr => 10
  | PErr.configErr => 12
  | PErr.indexErr => 1
  | PErr.decodeErr => 1

deriving instance DecidableEq for Except

/-- `match_pattern` of src/parse.py: classify one operand, first match
wins in the order constant, type, variable, label; otherwise exit 23. -/
def match_pattern (operand : String) : Except PErr Token :=
  if matchConst operand.data then Except.ok ⟨"const", operand⟩
  else if matchType operand.data then Except.ok ⟨"type", operand⟩
  else if matchVar operand.data then Except.ok ⟨"var", operand⟩
  else if matchIdent operand.data then Except.ok ⟨"label", operand⟩
  else Except.error PErr.patternMismatch

/-- `instruction_dict` of src/parse.py: opcode → required operand roles. -/
def instruction_dict (op : String) : Option (List String) :=
  match op with
  | "RETURN" => some []
  | "CREATEFRAME" => some []
  | "PUSHFRAME" => some []
  | "POPFRAME" => some []
  | "BREAK" => some []
  | "DEFVAR" => some ["var"]
  | "POPS" => some ["var"]
  | "CALL" => some ["label"]
  | "LABEL" => some ["label"]
  | "JUMP" => some ["label"]
  | "PUSHS" => some ["symb"]
  | "EXIT" => some ["symb"]
  | "DPRINT" => some ["symb"]
  | "WRITE" => some ["symb"]
  | "MOVE" => some ["var", "symb"]
  | "NOT" => some ["var", "symb"]
  | "INT2CHAR" => some ["var", "symb"]
  | "READ" => some ["var", "type"]
  | "TYPE" => some ["var", "symb"]
  | "STRLEN" => some ["var", "symb"]
  | "ADD" => some ["var", "symb", "symb"]
  | "SUB" => some ["var", "symb", "symb"]
  | "MUL" => some ["var", "symb", "symb"]
  | "IDIV" => some ["var", "symb", "symb"]
  | "LT" => some ["var", "symb", "symb"]
  | "GT" => some ["var", "symb", "symb"]
  | "EQ" => some ["var", "symb", "symb"]
  | "AND" => some ["var", "symb", "symb"]
  | "OR" => some ["var", "symb", "symb"]
  | "STRI2INT" => some ["var", "symb", "symb"]
  | "CONCAT" => some ["var", "symb", "symb"]
  | "GETCHAR" => some ["var", "symb", "symb"]
  | "SETCHAR" => some ["var", "symb", "symb"]
  | "JUMPIFEQ" => some ["label", "symb", "symb"]
  | "JUMPIFNEQ" => some ["label", "symb", "symb"]
  | _ => none

/-- The argument-checking loop of `parse_instruction` (src/parse.py lines
146-174): per position, too few tokens exits before the role check, and a
surplus of tokens is reported only after all required roles matched. -/
def checkArgs : List String → List Token → Except PErr Unit
  | [], [] => Except.ok ()
  | [], _ :: _ => Except.error PErr.arityMany
  | _ :: _, [] => Except.error PErr.arityFew
  | p :: ps, t :: ts =>
    if p = "var" then
      if t.token_type ≠ "var" then Except.error (PErr.roleMismatch "var")
      else checkArgs ps ts
    else if p = "symb" then
      if t.token_type ≠ "var" ∧ t.token_type ≠ "const" then
        Except.error (PErr.roleMismatch "symb")
      else checkArgs ps ts
    else if p = "type" then
      if t.token_type ≠ "type" then Except.error (PErr.roleMismatch "type")
      else checkArgs ps ts
    else if p = "label" then
      if t.token_type ≠ "label" then Except.error (PErr.roleMismatch "label")
      else checkArgs ps ts
    else checkArgs ps ts

/-- `Stats` class of src/parse.py.  The Python dicts preserve insertion
order, so they are embedded as association lists with helpers below. -/
structure Stats where
  loc : Nat
  comments : Nat
  labels : List (String × Nat)
  jumps : List (String × Nat)
  used_instructions : List (String × Nat)
  eol : Nat
deriving Repr, DecidableEq

/-- Python `key in dict`. -/
def hasKey (d : List (String × Nat)) (k : String) : Bool :=
  d.any (fun p => p.1 = k)

/-- Python `dict[key]` as an `Option`. -/
def dictFind (d : List (String × Nat)) (k : String) : Option Nat :=
  (d.find? (fun p => p.1 = k)).map (fun p => p.2)

/-- Python `dict[key] = v`: overwrite in place when present (keeping the
insertion position), otherwise append. -/
def dictSet (d : List (String × Nat)) (k : String) (v : Nat) : List (String × Nat) :=
  if hasKey d k then d.map (fun p => if p.1 = k then (p.1, v) else p)
  else d ++ [(k, v)]

/-- The `used_instructions` update of `print_xml`: increment when present,
otherwise insert with count 1. -/
def dictIncr (d : List (String × Nat)) (k : String) : List (String × Nat) :=
  if hasKey d k then d.map (fun p => if p.1 = k then (p.1, p.2 + 1) else p)
  else d ++ [(k, 1)]

/-- One iteration of the serialization loop of `print_xml` (src/parse.py
lines 217-238): for a constant, strip the recognized prefix; the `nil`
branch tests `token_value == 'nil'`, which a raw `nil@nil` constant never
satisfies, so that case falls through to the previous iteration's local
variables (`prev`), and to an `UnboundLocalError` (`none`) on the first
iteration. -/
def decodeStep (prev : Option (String × String)) (t : Token) : Option (String × String) :=
  if t.token_type = "const" then
    match stripLead ("string@".data) t.token_value.data with
    | some body => some ("string", String.mk body)
    | none =>
      match stripLead ("bool@".data) t.token_value.data with
      | some body => some ("bool", String.mk body)
      | none =>
        match stripLead ("int@".data) t.token_value.data with
        | some body => some ("int", String.mk body)
        | none =>
          if t.token_value = "nil" then some ("nil", "nil") else prev
  else some (t.token_type, t.token_value)

/-- The full serialization loop of `print_xml`, threading the stale
`token_type`/`token_value` locals through `prev`. -/
def decodeArgsAux (prev : Option (String × String)) : List Token → Option (List (String × String))
  | [] => some []
  | t :: rest =>
    match decodeStep prev t with
    | none => none
    | some d =>
      match decodeArgsAux (some d) rest with
      | none => none
      | some ds => some (d :: ds)

/-- Decoded `(type, value)` attribute pairs printed for an instruction. -/
def decodeArgs (tokens : List Token) : Option (List (String × String)) :=
  decodeArgsAux none tokens

/-- One accepted instruction as serialized by `print_xml`. -/
structure Instr where
  position : Nat
  opcode : String
  args : List (String × String)
deriving Repr, DecidableEq

/-- The opcodes recorded into `stats.jumps` by `print_xml`. -/
def jumpOpcodes : List String := ["CALL", "JUMP", "JUMPIFEQ", "JUMPIFNEQ"]

def setLabels (st : Stats) (d : List (String × Nat)) : Stats :=
  ⟨st.loc, st.comments, d, st.jumps, st.used_instructions, st.eol⟩

def setJumps (st : Stats) (d : List (String × Nat)) : Stats :=
  ⟨st.loc, st.comments, st.labels, d, st.used_instructions, st.eol⟩

def setUsed (st : Stats) (d : List (String × Nat)) : Stats :=
  ⟨st.loc, st.comments, st.labels, st.jumps, d, st.eol⟩

def incComments (st : Stats) : Stats :=
  ⟨st.loc, st.comments + 1, st.labels, st.jumps, st.used_instructions, st.eol⟩

def incLoc (st : Stats) : Stats :=
  ⟨st.loc + 1, st.comments, st.labels, st.jumps, st.used_instructions, st.eol⟩

def incEol (st : Stats) : Stats :=
  ⟨st.loc, st.comments, st.labels, st.jumps, st.used_instructions, st.eol + 1⟩

/-- The `LABEL` branch of `print_xml` (src/parse.py lines 196-203):
record the label at the freshly assigned order, a duplicate exits 23. -/
def labelStep (opcode : String) (tokens : List Token) (order1 : Nat) (st1 : Stats) :
    Except PErr Stats :=
  if opcode = "LABEL" then
    match tokens.head? with
    | none => Except.error PErr.indexErr
    | some t =>
      if hasKey st1.labels t.token_value then Except.error PErr.duplicateLabel
      else Except.ok (setLabels st1 (st1.labels ++ [(t.token_value, order1)]))
  else Except.ok st1

/-- The jump-reference branch of `print_xml` (src/parse.py lines 206-208):
`stats.jumps[label] = order`, overwriting any earlier reference. -/
def jumpStep (opcode : String) (tokens : List Token) (order1 : Nat) (st2 : Stats) :
    Except PErr Stats :=
  if opcode ∈ jumpOpcodes then
    match tokens.head? with
    | none => Except.error PErr.indexErr
    | some t => Except.ok (setJumps st2 (dictSet st2.jumps t.token_value order1))
  else Except.ok st2

/-- `print_xml` of src/parse.py: assign the next `order`, update
`used_instructions`, record labels (duplicate → exit 23) and jump
references (last write wins), and serialize the operands. -/
def print_xml (opcode : String) (tokens : List Token) (order : Nat) (st : Stats) :
    Except PErr (Nat × Stats × Instr) :=
  match labelStep opcode tokens (order + 1) (setUsed st (dictIncr st.used_instructions opcode)) with
  | Except.error e => Except.error e
  | Except.ok st2 =>
    match jumpStep opcode tokens (order + 1) st2 with
    | Except.error e => Except.error e
    | Except.ok st3 =>
      match decodeArgs tokens with
      | none => Except.error PErr.decodeErr
      | some dargs => Except.ok (order + 1, st3, ⟨order + 1, opcode, dargs⟩)

/-- `parse_instruction` of src/parse.py: re-check the opcode (exit 23 on
this dead path), check arity and roles, then emit via `print_xml`. -/
def parse_instruction (opcode : String) (tokens : List Token) (order : Nat) (st : Stats) :
    Except PErr (Nat × Stats × Instr) :=
  match instruction_dict opcode with
  | none => Except.error PErr.unknownOpcodeLate
  | some pats =>
    match checkArgs pats tokens with
    | Except.error e => Except.error e
    | Except.ok _ => print_xml opcode tokens order st

/-- The per-argument classification loop of `instruction_scan`. -/
def mapTokens : List (List Char) → Except PErr (List Token)
  | [] => Except.ok []
  | a :: rest =>
    match match_pattern (String.mk a) with
    | Except.error e => Except.error e
    | Except.ok t =>
      match mapTokens rest with
      | Except.error e => Except.error e
      | Except.ok ts => Except.ok (t :: ts)

/-- `instruction_scan` after splitting off the opcode (src/parse.py lines
114-127): unknown opcode exits 22 before any operand is classified. -/
def scanCore (opcode : String) (argStrs : List (List Char)) (order : Nat) (st : Stats) :
    Except PErr (Nat × Stats × Instr) :=
  if (instruction_dict opcode).isNone then Except.error PErr.unknownOpcode
  else
    match mapTokens argStrs with
    | Except.error e => Except.error e
    | Except.ok tokens => parse_instruction opcode tokens order st

/-- `instruction_scan` of src/parse.py: skip comment/blank lines, strip a
trailing comment (counting it), split opcode from arguments, scan. -/
def instruction_scan (line : List Char) (order : Nat) (st : Stats) :
    Except PErr (Nat × Stats × Option Instr) :=
  if line.head? = some '#' ∨ pyStrip line = [] then Except.ok (order, st, none)
  else
    match pySplit (pyStrip (splitHash line).1) with
    | [] => Except.error PErr.indexErr
    | opc :: argStrs =>
      match scanCore (String.mk opc) argStrs order
          (match (splitHash line).2 with
           | some _ => incComments st
           | none => st) with
      | Except.error e => Except.error e
      | Except.ok (o1, st2, i) => Except.ok (o1, st2, some i)

/-- Whole-run state: the global `order` counter, the global `stats`, the
emitted instructions in order, and the `first_line` flag of `main`. -/
structure RunState where
  order : Nat
  stats : Stats
  instrs : List Instr
  firstLine : Bool
deriving Repr, DecidableEq

/-- The body of the input loop of `main` (src/parse.py lines 304-323). -/
def processLine (l : List Char) (rs : RunState) : Except PErr RunState :=
  if rs.firstLine then
    if pyStrip l ≠ ".IPPcode24".data then Except.error PErr.headerError
    else Except.ok ⟨rs.order, incEol rs.stats, rs.instrs, false⟩
  else if (pyStrip l).head? = some '#' then
    Except.ok ⟨rs.order, incComments (incEol rs.stats), rs.instrs, false⟩
  else if pyStrip l = [] then Except.ok ⟨rs.order, incEol rs.stats, rs.instrs, false⟩
  else
    match instruction_scan (pyStrip l) rs.order (incLoc (incEol rs.stats)) with
    | Except.error e => Except.error e
    | Except.ok (o1, st1, oi) => Except.ok ⟨o1, st1, rs.instrs ++ oi.toList, false⟩

/-- Fold `processLine` over the input lines. -/
def runLines : List (List Char) → RunState → Except PErr RunState
  | [], rs => Except.ok rs
  | l :: rest, rs =>
    match processLine l rs with
    | Except.error e => Except.error e
    | Except.ok rs1 => runLines rest rs1

/-- Initial run state: `order = 0`, empty statistics, `first_line = True`. -/
def initState : RunState := ⟨0, ⟨0, 0, [], [], [], 0⟩, [], true⟩

/-- The input-scanning phase of `main` on a list of input lines. -/
def runMain (lines : List String) : Except PErr RunState :=
  runLines (lines.map String.data) initState

/-- The jump-classification post-pass of `main` (src/parse.py lines
328-341): fold over the jump-reference map in insertion order, returning
`(fwjumps, backjumps, badjumps)`; references to undefined labels count
nowhere. -/
def countJumps (labels jumps : List (String × Nat)) : Nat × Nat × Nat :=
  jumps.foldl
    (fun acc p =>
      match dictFind labels p.1 with
      | none => acc
      | some lo =>
        if p.2 < lo then (acc.1 + 1, acc.2.1, acc.2.2)
        else if p.2 > lo then (acc.1, acc.2.1 + 1, acc.2.2)
        else (acc.1, acc.2.1, acc.2.2 + 1))
    (0, 0, 0)

/-- Python `max(dict.values())`, `none` on an empty dict (`ValueError`). -/
def maxUsage : List (String × Nat) → Option Nat
  | [] => none
  | p :: rest => some (rest.foldl (fun acc q => max acc q.2) p.2)

/-- Remove the first entry carrying the given count, returning its key and
the remaining map: the combination of
`[k for k, v in d.items() if v == m][0]` and `del d[k]` (keys are unique). -/
def removeFirstWith : List (String × Nat) → Nat → Option (String × List (String × Nat))
  | [], _ => none
  | p :: rest, m =>
    if p.2 = m then some (p.1, rest)
    else
      match removeFirstWith rest m with
      | none => none
      | some q => some (q.1, p :: q.2)

/-- The `--frequent` greedy loop of `main` (src/parse.py lines 373-384):
while `current_capacity < 0.35 * loc` (embedded as the exact rational
comparison `100 * cap < 35 * loc`), move the first opcode of maximal count
from the working map into the buffer.  Structural fuel (`used.length + 1`
at the entry point) is never exhausted: each iteration removes one entry,
and an empty map makes `max` fail (`none`, Python `ValueError`) first.
Returns (buffer, remaining map, accumulated capacity). -/
def selectLoopF : Nat → List (String × Nat) → Nat → Nat → List String →
    Option (List String × List (String × Nat) × Nat)
  | 0, _, _, _, _ => none
  | fuel + 1, used, loc, cap, buf =>
    if 100 * cap < 35 * loc then
      match maxUsage used with
      | none => none
      | some m =>
        match removeFirstWith used m with
        | none => none
        | some q => selectLoopF fuel q.2 loc (cap + m) (buf ++ [q.1])
    else some (buf, used, cap)

/-- Entry point of the greedy loop. -/
def selectFrequent (used : List (String × Nat)) (loc : Nat) :
    Option (List String × List (String × Nat) × Nat) :=
  selectLoopF (used.length + 1) used loc 0 []

/-- The full `--frequent` handler: run the greedy loop on
`stats.used_instructions` with total `stats.loc`, sort the buffer
alphabetically (`buffer.sort()`), and — because the loop executes
`del stats.used_instructions[...]` — store the depleted working map back
into the statistics. -/
def frequentPass (st : Stats) : Option (List String × Stats) :=
  match selectFrequent st.used_instructions st.loc with
  | none => none
  | some r => some (List.insertionSort (fun a b => a ≤ b) r.1, setUsed st r.2.1)

/-- Python `set.add` on a list kept duplicate-free. -/
def setAdd (s : List String) (x : String) : List String :=
  if x ∈ s then s else s ++ [x]

/-- `arg.split('=')[1]` of src/parse.py. -/
def statsFileName (arg : String) : String :=
  String.mk (((splitOnChar '=' arg.data).drop 1).headD [])

/-- The `--stats` collection loop of `main` (src/parse.py lines 284-291):
`stats_files` is a Python set, embedded as a duplicate-free list. -/
def collectStats : List String → List String → Except PErr (List String)
  | [], files => Except.ok files
  | a :: rest, files =>
    match stripLead ("--stats=".data) a.data with
    | some _ => collectStats rest (setAdd files (statsFileName a))
    | none =>
      if a = "--stats" then Except.error PErr.usageErr
      else collectStats rest files

/-- The duplicate-destination check of `main` (src/parse.py lines 293-295):
compare `len(stats_files)` with `len(set(stats_files))` — but
`stats_files` is itself a set, so the two lengths always agree. -/
def checkDupStats (args : List String) : Except PErr (List String) :=
  match collectStats args [] with
  | Except.error e => Except.error e
  | Except.ok files =>
    if files.length ≠ files.dedup.length then Except.error PErr.configErr
    else Except.ok files

/-- Project the success value of a run. -/
def okPart {α : Type} : Except PErr α → Option α
  | Except.ok a => some a
  | Except.error _ => none

/-- A line that `main` treats as an instruction line (after the header):
nonempty after stripping and not a comment line. -/
def isInstrLine (l : List Char) : Bool :=
  !(pyStrip l).isEmpty && !((pyStrip l).head? == some '#')

/-- The number of instruction lines scanned after the header line. -/
def countInstrLines (lines : List String) : Nat :=
  ((lines.map String.data).drop 1).countP isInstrLine

/-- The first input line that is neither empty after trimming nor a
comment line (the "first non-discarded line" of the claim), stripped. -/
def firstNonDiscarded (lines : List String) : Option (List Char) :=
  (lines.map (fun l => pyStrip l.data)).find? (fun s => !s.isEmpty && !(s.head? == some '#'))

/-- The invariant that no key of the label map or of the jump-reference
map is one of the type keywords. -/
def labelsOK (st : Stats) : Prop :=
  (∀ k, hasKey st.labels k = true → matchType k.data = false) ∧
  (∀ k, hasKey st.jumps k = true → matchType k.data = false)


/-! ### Lemmas about the operand classifier -/

theorem match_pattern_error (s : String) (e : PErr)
    (h : match_pattern s = Except.error e) : e = PErr.patternMismatch := by
  unfold match_pattern at h
  split_ifs at h
  simp_all

theorem match_pattern_value (s : String) (t : Token)
    (h : match_pattern s = Except.ok t) : t.token_value = s := by
  unfold match_pattern at h
  split_ifs at h <;> (cases h; rfl)

theorem match_pattern_label_not_type (s : String) (t : Token)
    (h : match_pattern s = Except.ok t) (hl : t.token_type = "label") :
    matchType s.data = false := by
  unfold match_pattern at h
  split_ifs at h with h1 h2 h3 h4 <;> (cases h; simp_all)

theorem mapTokens_error (args : List (List Char)) (e : PErr)
    (h : mapTokens args = Except.error e) : e = PErr.patternMismatch := by
  induction args with
  | nil => simp [mapTokens] at h
  | cons a rest ih =>
    unfold mapTokens at h
    cases h1 : match_pattern (String.mk a) with
    | error e1 =>
      rw [h1] at h
      cases h
      exact match_pattern_error _ _ h1
    | ok t =>
      rw [h1] at h
      cases h2 : mapTokens rest with
      | error e2 =>
        rw [h2] at h
        cases h
        exact ih h2
      | ok ts => rw [h2] at h; cases h

theorem mapTokens_mem (args : List (List Char)) (ts : List Token)
    (h : mapTokens args = Except.ok ts) :
    ∀ t ∈ ts, ∃ a, a ∈ args ∧ match_pattern (String.mk a) = Except.ok t := by
  induction args generalizing ts with
  | nil =>
    simp [mapTokens] at h
    subst h
    intro t ht
    cases ht
  | cons a rest ih =>
    unfold mapTokens at h
    cases h1 : match_pattern (String.mk a) with
    | error e1 => rw [h1] at h; cases h
    | ok t0 =>
      rw [h1] at h
      cases h2 : mapTokens rest with
      | error e2 => rw [h2] at h; cases h
      | ok ts0 =>
        rw [h2] at h
        cases h
        intro t ht
        rcases List.mem_cons.mp ht with rfl | hmem
        · exact ⟨a, List.mem_cons_self a rest, h1⟩
        · obtain ⟨b, hb, hbm⟩ := ih ts0 h2 t hmem
          exact ⟨b, List.mem_cons_of_mem a hb, hbm⟩

/-! ### Lemmas about the argument checker -/

theorem checkArgs_error (ps : List String) (ts : List Token) (e : PErr)
    (h : checkArgs ps ts = Except.error e) :
    e = PErr.arityFew ∨ e = PErr.arityMany ∨ ∃ r, e = PErr.roleMismatch r := by
  induction ps generalizing ts with
  | nil =>
    cases ts with
    | nil => cases h
    | cons t ts' => cases h; simp
  | cons p ps' ih =>
    cases ts with
    | nil => cases h; simp
    | cons t ts' =>
      unfold checkArgs at h
      split_ifs at h <;> first
        | (cases h; simp)
        | exact ih ts' h

theorem checkArgs_label_head (ps : List String) (t : Token) (ts : List Token)
    (u : Unit) (h : checkArgs ("label" :: ps) (t :: ts) = Except.ok u) :
    t.token_type = "label" := by
  unfold checkArgs at h
  split_ifs at h with h1 h2 h3 h4 h5 <;> simp_all

theorem checkArgs_label_first (pats : List String) (toks : List Token) (u : Unit)
    (h : checkArgs pats toks = Except.ok u) (hp : pats.head? = some "label") :
    ∃ t ts, toks = t :: ts ∧ t.token_type = "label" := by
  cases pats with
  | nil => cases hp
  | cons p ps =>
    cases toks with
    | nil => cases h
    | cons t ts =>
      simp at hp
      subst hp
      exact ⟨t, ts, rfl, checkArgs_label_head ps t ts u h⟩

/-! ### Lemmas about stripping -/

theorem dropWhile_head_false (p : Char → Bool) :
    ∀ (l : List Char) (c : Char) (rest : List Char),
      l.dropWhile p = c :: rest → p c = false := by
  intro l
  induction l with
  | nil => intro c rest h; simp [List.dropWhile] at h
  | cons a as ih =>
    intro c rest h
    by_cases hp : p a
    · rw [List.dropWhile_cons_of_pos hp] at h
      exact ih c rest h
    · rw [List.dropWhile_cons_of_neg hp] at h
      cases h
      exact Bool.of_not_eq_true hp

theorem pyStrip_head_false (cs : List Char) (c : Char) (rest : List Char)
    (h : pyStrip cs = c :: rest) : isPyWS c = false := by
  obtain ⟨t, ht⟩ := List.rdropWhile_prefix isPyWS (cs.dropWhile isPyWS)
  rw [pyStrip] at h
  rw [h, List.cons_append] at ht
  exact dropWhile_head_false isPyWS cs c (rest ++ t) ht.symm

theorem pyStrip_pyStrip_ne_nil (cs : List Char) (h : pyStrip cs ≠ []) :
    pyStrip (pyStrip cs) ≠ [] := by
  cases hh : pyStrip cs with
  | nil => exact absurd hh h
  | cons c rest =>
    have hc := pyStrip_head_false cs c rest hh
    intro hcon
    rw [pyStrip, List.dropWhile_cons_of_neg (by simp [hc])] at hcon
    rw [List.rdropWhile_eq_nil_iff] at hcon
    have := hcon c (List.mem_cons_self c rest)
    rw [hc] at this
    cases this

/-! ### Lemmas about the emitter and validator -/


theorem labelStep_error (op : String) (toks : List Token) (o1 : Nat) (st : Stats)
    (e : PErr) (h : labelStep op toks o1 st = Except.error e) :
    e = PErr.indexErr ∨ e = PErr.duplicateLabel := by
  unfold labelStep at h
  split_ifs at h with h1
  split at h
  · cases h; simp
  · split_ifs at h with h2
    cases h; simp

theorem jumpStep_error (op : String) (toks : List Token) (o1 : Nat) (st : Stats)
    (e : PErr) (h : jumpStep op toks o1 st = Except.error e) : e = PErr.indexErr := by
  unfold jumpStep at h
  split_ifs at h with h1
  split at h
  · cases h; rfl
  · cases h

theorem print_xml_ok (op : String) (toks : List Token) (o : Nat) (st : Stats)
    (o1 : Nat) (st1 : Stats) (i : Instr)
    (h : print_xml op toks o st = Except.ok (o1, st1, i)) :
    o1 = o + 1 ∧ i.position = o + 1 := by
  unfold print_xml at h
  split at h
  · cases h
  · split at h
    · cases h
    · split at h
      · cases h
      · cases h
        exact ⟨rfl, rfl⟩

theorem print_xml_error (op : String) (toks : List Token) (o : Nat) (st : Stats)
    (e : PErr) (h : print_xml op toks o st = Except.error e) :
    e = PErr.indexErr ∨ e = PErr.duplicateLabel ∨ e = PErr.decodeErr := by
  unfold print_xml at h
  split at h
  · rename_i e1 h1
    cases h
    rcases labelStep_error _ _ _ _ _ h1 with h2 | h2 <;> simp [h2]
  · split at h
    · rename_i e2 h2
      cases h
      simp [jumpStep_error _ _ _ _ _ h2]
    · split at h
      · cases h; simp
      · cases h

theorem parse_instruction_ok (op : String) (toks : List Token) (o : Nat) (st : Stats)
    (o1 : Nat) (st1 : Stats) (i : Instr)
    (h : parse_instruction op toks o st = Except.ok (o1, st1, i)) :
    o1 = o + 1 ∧ i.position = o + 1 := by
  unfold parse_instruction at h
  split at h
  · cases h
  · split at h
    · cases h
    · exact print_xml_ok _ _ _ _ _ _ _ h

theorem parse_instruction_error (op : String) (toks : List Token) (o : Nat)
    (st : Stats) (e : PErr) (h : parse_instruction op toks o st = Except.error e) :
    e ≠ PErr.headerError ∧ e ≠ PErr.unknownOpcode := by
  unfold parse_instruction at h
  split at h
  · cases h; simp
  · split at h
    · rename_i e2 h2
      cases h
      rcases checkArgs_error _ _ _ h2 with h3 | h3 | ⟨r, h3⟩ <;> simp [h3]
    · rcases print_xml_error _ _ _ _ _ h with h3 | h3 | h3 <;> simp [h3]

theorem scanCore_ok (op : String) (argStrs : List (List Char)) (o : Nat) (st : Stats)
    (o1 : Nat) (st1 : Stats) (i : Instr)
    (h : scanCore op argStrs o st = Except.ok (o1, st1, i)) :
    o1 = o + 1 ∧ i.position = o + 1 := by
  unfold scanCore at h
  by_cases h1 : (instruction_dict op).isNone
  · rw [if_pos h1] at h; cases h
  · rw [if_neg h1] at h
    split at h
    · cases h
    · exact parse_instruction_ok _ _ _ _ _ _ _ h

theorem scanCore_error (op : String) (argStrs : List (List Char)) (o : Nat)
    (st : Stats) (e : PErr) (h : scanCore op argStrs o st = Except.error e) :
    e ≠ PErr.headerError := by
  unfold scanCore at h
  by_cases h1 : (instruction_dict op).isNone
  · rw [if_pos h1] at h; cases h; simp
  · rw [if_neg h1] at h
    split at h
    · rename_i e2 h2
      cases h
      simp [mapTokens_error _ _ h2]
    · exact (parse_instruction_error _ _ _ _ _ h).1

theorem instruction_scan_ok_instr (line : List Char) (o : Nat) (st : Stats)
    (o1 : Nat) (st1 : Stats) (oi : Option Instr)
    (hc : ¬line.head? = some '#') (hn : ¬pyStrip line = [])
    (h : instruction_scan line o st = Except.ok (o1, st1, oi)) :
    o1 = o + 1 ∧ ∃ i, oi = some i ∧ i.position = o + 1 := by
  unfold instruction_scan at h
  rw [if_neg (by simp [hc, hn])] at h
  split at h
  · cases h
  · split at h
    · cases h
    · rename_i o2 st2 i h4
      cases h
      obtain ⟨ho, hp⟩ := scanCore_ok _ _ _ _ _ _ _ h4
      exact ⟨ho, i, rfl, hp⟩

theorem instruction_scan_error (line : List Char) (o : Nat) (st : Stats) (e : PErr)
    (h : instruction_scan line o st = Except.error e) : e ≠ PErr.headerError := by
  unfold instruction_scan at h
  by_cases h1 : line.head? = some '#' ∨ pyStrip line = []
  · rw [if_pos h1] at h; cases h
  · rw [if_neg h1] at h
    split at h
    · cases h; simp
    · split at h
      · rename_i e2 h2
        cases h
        exact scanCore_error _ _ _ _ _ h2
      · cases h

/-! ### Lemmas about the main loop -/

theorem processLine_firstLine_false (l : List Char) (rs rs1 : RunState)
    (h : processLine l rs = Except.ok rs1) : rs1.firstLine = false := by
  unfold processLine at h
  by_cases h1 : rs.firstLine = true
  · rw [if_pos h1] at h
    by_cases h2 : pyStrip l ≠ ".IPPcode24".data
    · rw [if_pos h2] at h; cases h
    · rw [if_neg h2] at h; cases h; rfl
  · rw [if_neg h1] at h
    by_cases h2 : (pyStrip l).head? = some '#'
    · rw [if_pos h2] at h; cases h; rfl
    · rw [if_neg h2] at h
      by_cases h3 : pyStrip l = []
      · rw [if_pos h3] at h; cases h; rfl
      · rw [if_neg h3] at h
        split at h
        · cases h
        · cases h; rfl

theorem processLine_false_spec (l : List Char) (rs rs1 : RunState)
    (hf : rs.firstLine = false) (h : processLine l rs = Except.ok rs1) :
    (isInstrLine l = true →
      rs1.order = rs.order + 1 ∧
      ∃ i, rs1.instrs = rs.instrs ++ [i] ∧ i.position = rs.order + 1) ∧
    (isInstrLine l = false → rs1.order = rs.order ∧ rs1.instrs = rs.instrs) := by
  unfold processLine at h
  rw [if_neg (by simp [hf])] at h
  by_cases h2 : (pyStrip l).head? = some '#'
  · rw [if_pos h2] at h
    cases h
    have hni : isInstrLine l = false := by simp [isInstrLine, h2]
    constructor
    · intro hcon; rw [hni] at hcon; cases hcon
    · intro _; exact ⟨rfl, rfl⟩
  · rw [if_neg h2] at h
    by_cases h3 : pyStrip l = []
    · rw [if_pos h3] at h
      cases h
      have hni : isInstrLine l = false := by simp [isInstrLine, h3]
      constructor
      · intro hcon; rw [hni] at hcon; cases hcon
      · intro _; exact ⟨rfl, rfl⟩
    · rw [if_neg h3] at h
      have hinstr : isInstrLine l = true := by
        simp [isInstrLine, h3, h2]
      split at h
      · cases h
      · rename_i o1 st1 oi h4
        cases h
        obtain ⟨ho, i, hoi, hip⟩ :=
          instruction_scan_ok_instr (pyStrip l) rs.order _ o1 st1 oi h2
            (pyStrip_pyStrip_ne_nil l h3) h4
        constructor
        · intro _
          exact ⟨by simp [ho], i, by simp [hoi], hip⟩
        · intro hcon; rw [hinstr] at hcon; cases hcon

theorem processLine_false_ne_header (l : List Char) (rs : RunState)
    (hf : rs.firstLine = false) :
    processLine l rs ≠ Except.error PErr.headerError := by
  intro h
  unfold processLine at h
  rw [if_neg (by simp [hf])] at h
  by_cases h2 : (pyStrip l).head? = some '#'
  · rw [if_pos h2] at h; cases h
  · rw [if_neg h2] at h
    by_cases h3 : pyStrip l = []
    · rw [if_pos h3] at h; cases h
    · rw [if_neg h3] at h
      split at h
      · rename_i e2 h4
        cases h
        exact instruction_scan_error _ _ _ _ h4 rfl
      · cases h

theorem runLines_false_spec (ls : List (List Char)) :
    ∀ rs rs1 : RunState, rs.firstLine = false → runLines ls rs = Except.ok rs1 →
      rs1.order = rs.order + ls.countP isInstrLine ∧
      rs1.instrs.map Instr.position =
        rs.instrs.map Instr.position ++
          List.range' (rs.order + 1) (ls.countP isInstrLine) ∧
      rs1.firstLine = false := by
  induction ls with
  | nil =>
    intro rs rs1 hf h
    cases h
    simp [hf]
  | cons l rest ih =>
    intro rs rs1 hf h
    unfold runLines at h
    split at h
    · cases h
    · rename_i rsm hm
      have hfm := processLine_firstLine_false _ _ _ hm
      obtain ⟨ho, hmap, hff⟩ := ih rsm rs1 hfm h
      obtain ⟨hI, hN⟩ := processLine_false_spec _ _ _ hf hm
      by_cases hl : isInstrLine l = true
      · obtain ⟨ho2, i, hins, hip⟩ := hI hl
        rw [List.countP_cons_of_pos _ _ hl]
        refine ⟨by omega, ?_, hff⟩
        rw [hmap, hins, List.map_append, ho2, List.range'_succ]
        simp [hip]
      · have hl' : isInstrLine l = false := by
          cases hval : isInstrLine l
          · rfl
          · exact absurd hval hl
        obtain ⟨ho2, hins⟩ := hN hl'
        rw [List.countP_cons_of_neg _ _ (by simp [hl'])]
        exact ⟨by omega, by rw [hmap, hins, ho2], hff⟩

theorem runLines_false_ne_header (ls : List (List Char)) :
    ∀ rs : RunState, rs.firstLine = false →
      runLines ls rs ≠ Except.error PErr.headerError := by
  induction ls with
  | nil => intro rs hf h; cases h
  | cons l rest ih =>
    intro rs hf h
    unfold runLines at h
    split at h
    · rename_i e hm
      cases h
      exact processLine_false_ne_header l rs hf hm
    · rename_i rs1 hm
      exact ih rs1 (processLine_firstLine_false _ _ _ hm) h

/-! ### Claim theorems -/

/-- C1: for every well-formed input (one on which the scanner raises no
error), the positions of the accepted instructions are exactly `1..N` in
strictly increasing order with no gaps or repeats, where `N` is the number
of non-comment, non-empty instruction lines scanned after the header. -/
theorem C1_positions_exact (lines : List String) (rs : RunState)
    (h : runMain lines = Except.ok rs) :
    rs.instrs.map Instr.position = List.range' 1 (countInstrLines lines) := by
  unfold runMain at h
  cases lines with
  | nil =>
    cases h
    simp [countInstrLines, initState]
  | cons l rest =>
    rw [List.map_cons] at h
    unfold runLines at h
    split at h
    · cases h
    · rename_i rsm hm
      unfold processLine at hm
      rw [if_pos (show initState.firstLine = true from rfl)] at hm
      by_cases hh : pyStrip l.data ≠ ".IPPcode24".data
      · rw [if_pos hh] at hm; cases hm
      · rw [if_neg hh] at hm
        cases hm
        obtain ⟨ho, hmap, _⟩ := runLines_false_spec (rest.map String.data) _ rs rfl h
        rw [hmap]
        simp [countInstrLines, initState]

theorem C1_positions_exact_witness :
    ([⟨1, "DEFVAR", [("var", "GF@x")]⟩, ⟨2, "PUSHS", [("int", "5")]⟩] : List Instr).map
        Instr.position =
      List.range' 1 (countInstrLines
        [".IPPcode24", "DEFVAR GF@x", "# c", "", "PUSHS int@5"]) :=
  C1_positions_exact [".IPPcode24", "DEFVAR GF@x", "# c", "", "PUSHS int@5"]
    ⟨2, ⟨2, 1, [], [], [("DEFVAR", 1), ("PUSHS", 1)], 5⟩,
     [⟨1, "DEFVAR", [("var", "GF@x")]⟩, ⟨2, "PUSHS", [("int", "5")]⟩], false⟩
    (by decide)

/-- C2 counterexample: for the program `JUMP x; LABEL x; JUMP x` the claim
asserts one forward and one backward jump, but the forward count computed
by the post-pass over the collapsed jump-reference map is `0`, not `1`. -/
theorem C2_counterexample :
    (okPart (runMain [".IPPcode24", "JUMP x", "LABEL x", "JUMP x"])).map
        (fun rs => countJumps rs.stats.labels rs.stats.jumps) =
      some (0, 1, 0) ∧ (0 : Nat) ≠ 1 := by decide

/-- C2 (amended): for the program `JUMP x; LABEL x; JUMP x` the analysis
reports zero forward jumps, one backward jump and zero bad jumps; the
label map has the single entry `x ↦ 2` and the jump-reference map the
single entry `x ↦ 3` (the position-3 reference overwrote position 1). -/
theorem C2_jump_scenario_amended :
    (okPart (runMain [".IPPcode24", "JUMP x", "LABEL x", "JUMP x"])).map
        (fun rs => (countJumps rs.stats.labels rs.stats.jumps,
                    rs.stats.labels, rs.stats.jumps)) =
      some ((0, 1, 0), [("x", 2)], [("x", 3)]) := by decide

/-- C3: the serializer's `nil` branch compares the raw operand against
`"nil"`, but the accepted constant is `"nil@nil"`, so the branch never
fires: the first `nil@nil` operand aborts the run (UnboundLocalError) and
a later one silently reuses the previous operand's decoded pair, while
the int/bool/string prefixes do round-trip as the claim states. -/
theorem C3_nil_decode_bug :
    runMain [".IPPcode24", "PUSHS nil@nil"] = Except.error PErr.decodeErr ∧
    decodeStep none ⟨"const", "nil@nil"⟩ = none ∧
    decodeStep (some ("var", "GF@x")) ⟨"const", "nil@nil"⟩ = some ("var", "GF@x") ∧
    decodeStep none ⟨"const", "int@-42"⟩ = some ("int", "-42") ∧
    String.mk ("int@".data ++ "-42".data) = "int@-42" ∧
    decodeStep none ⟨"const", "bool@true"⟩ = some ("bool", "true") ∧
    String.mk ("bool@".data ++ "true".data) = "bool@true" ∧
    decodeStep none ⟨"const", "string@x\\035y"⟩ = some ("string", "x\\035y") ∧
    String.mk ("string@".data ++ "x\\035y".data) = "string@x\\035y" := by decide

/-- C7 (amended): the header check applies to the physical first input
line: a run aborts with the fatal header error, for every continuation of
the input, exactly when the first line after trimming differs from
`.IPPcode24` — comment or blank lines are not skipped before the check. -/
theorem C7_header_first_line (l : String) (rest : List String) :
    runMain (l :: rest) = Except.error PErr.headerError ↔
      pyStrip l.data ≠ ".IPPcode24".data := by
  constructor
  · intro h heq
    unfold runMain at h
    rw [List.map_cons] at h
    unfold runLines at h
    split at h
    · rename_i e hm
      cases h
      unfold processLine at hm
      rw [if_pos (show initState.firstLine = true from rfl), if_neg (by simp [heq])] at hm
      cases hm
    · rename_i rsm hm
      exact runLines_false_ne_header (rest.map String.data) rsm
        (processLine_firstLine_false _ _ _ hm) h
  · intro hne
    have hm : processLine l.data initState = Except.error PErr.headerError := by
      unfold processLine
      rw [if_pos (show initState.firstLine = true from rfl), if_pos hne]
    unfold runMain
    rw [List.map_cons]
    unfold runLines
    rw [hm]

theorem C7_header_first_line_witness :
    runMain ["JUMP x"] = Except.error PErr.headerError :=
  (C7_header_first_line "JUMP x" []).mpr (by decide)

/-- C7 counterexample: the input whose first line is a comment and whose
second line is the header has `.IPPcode24` as its first non-discarded
line, yet the run aborts with the header error, contradicting the claim. -/
theorem C7_counterexample :
    firstNonDiscarded ["# preamble", ".IPPcode24"] = some (".IPPcode24".data) ∧
    runMain ["# preamble", ".IPPcode24"] = Except.error PErr.headerError := by decide

/-- C8: every opcode outside the signature table makes the scanner fail
with the unknown-opcode error (exit 22) before any operand is examined —
for every operand list, including ill-shaped operands — and this exit
status is distinct from the pattern-mismatch and arity errors (23). -/
theorem C8_unknown_opcode (op : String) (h : instruction_dict op = none) :
    (∀ (argStrs : List (List Char)) (o : Nat) (st : Stats),
      scanCore op argStrs o st = Except.error PErr.unknownOpcode) ∧
    errCode PErr.unknownOpcode = 22 ∧ errCode PErr.patternMismatch = 23 ∧
    errCode PErr.arityFew = 23 ∧ errCode PErr.arityMany = 23 ∧
    (∀ r, errCode (PErr.roleMismatch r) = 23) := by
  refine ⟨?_, rfl, rfl, rfl, rfl, fun r => rfl⟩
  intro argStrs o st
  unfold scanCore
  rw [if_pos (by simp [h])]

theorem C8_unknown_opcode_witness :
    scanCore "FOO" ["@@nonsense".data] 0 ⟨0, 0, [], [], [], 0⟩ =
      Except.error PErr.unknownOpcode :=
  (C8_unknown_opcode "FOO" (by decide)).1 ["@@nonsense".data] 0 ⟨0, 0, [], [], [], 0⟩

/-- C9: an operand matching none of the four recognized shapes fails with
the pattern-mismatch error (exit 23); `GF@1bad` fails because the
identifier part may not start with a digit, while `GF@bad1` is classified
as a variable. -/
theorem C9_pattern_mismatch :
    (∀ s : String, matchConst s.data = false → matchType s.data = false →
      matchVar s.data = false → matchIdent s.data = false →
      match_pattern s = Except.error PErr.patternMismatch ∧
        errCode PErr.patternMismatch = 23) ∧
    match_pattern "GF@1bad" = Except.error PErr.patternMismatch ∧
    match_pattern "GF@bad1" = Except.ok ⟨"var", "GF@bad1"⟩ := by
  refine ⟨?_, by decide, by decide⟩
  intro s h1 h2 h3 h4
  exact ⟨by simp [match_pattern, h1, h2, h3, h4], rfl⟩

theorem C9_pattern_mismatch_witness :
    match_pattern "@@nope" = Except.error PErr.patternMismatch ∧
      errCode PErr.patternMismatch = 23 :=
  C9_pattern_mismatch.1 "@@nope" (by decide) (by decide) (by decide) (by decide)

/-! ### Lemmas about the frequency selector and the stats arguments -/

theorem removeFirstWith_sublist (l : List (String × Nat)) (m : Nat) :
    ∀ q, removeFirstWith l m = some q → q.2.Sublist l := by
  induction l with
  | nil => intro q h; cases h
  | cons p rest ih =>
    intro q h
    unfold removeFirstWith at h
    split_ifs at h with h1
    · cases h
      exact List.sublist_cons_self p rest
    · split at h
      · cases h
      · rename_i q0 h2
        cases h
        exact (ih q0 h2).cons₂ p

theorem selectLoopF_sublist (fuel : Nat) :
    ∀ (used : List (String × Nat)) (loc cap : Nat) (buf : List String) r,
      selectLoopF fuel used loc cap buf = some r → r.2.1.Sublist used := by
  induction fuel with
  | zero => intro used loc cap buf r h; cases h
  | succ n ih =>
    intro used loc cap buf r h
    unfold selectLoopF at h
    split_ifs at h with h1
    · split at h
      · cases h
      · split at h
        · cases h
        · rename_i q hq
          exact (ih _ _ _ _ _ h).trans (removeFirstWith_sublist _ _ _ hq)
    · cases h
      exact List.Sublist.refl _

theorem selectLoopF_threshold (fuel : Nat) :
    ∀ (used : List (String × Nat)) (loc cap : Nat) (buf : List String) r,
      selectLoopF fuel used loc cap buf = some r → 35 * loc ≤ 100 * r.2.2 := by
  induction fuel with
  | zero => intro used loc cap buf r h; cases h
  | succ n ih =>
    intro used loc cap buf r h
    unfold selectLoopF at h
    split_ifs at h with h1
    · split at h
      · cases h
      · split at h
        · cases h
        · exact ih _ _ _ _ _ h
    · cases h
      simp only []
      omega

theorem setAdd_nodup (s : List String) (x : String) (h : s.Nodup) :
    (setAdd s x).Nodup := by
  unfold setAdd
  split_ifs with hm
  · exact h
  · rw [List.nodup_append]
    refine ⟨h, List.nodup_singleton x, ?_⟩
    intro a ha hax
    rw [List.mem_singleton] at hax
    subst hax
    exact hm ha

theorem collectStats_error (args : List String) :
    ∀ (acc : List String) (e : PErr),
      collectStats args acc = Except.error e → e = PErr.usageErr := by
  induction args with
  | nil => intro acc e h; cases h
  | cons a rest ih =>
    intro acc e h
    unfold collectStats at h
    split at h
    · exact ih _ _ h
    · split_ifs at h with h1
      · cases h; rfl
      · exact ih _ _ h

theorem collectStats_nodup (args : List String) :
    ∀ (acc files : List String), acc.Nodup →
      collectStats args acc = Except.ok files → files.Nodup := by
  induction args with
  | nil =>
    intro acc files hn h
    cases h
    exact hn
  | cons a rest ih =>
    intro acc files hn h
    unfold collectStats at h
    split at h
    · exact ih _ _ (setAdd_nodup _ _ hn) h
    · split_ifs at h with h1
      exact ih _ _ hn h

/-- C4: the frequency selector repeatedly removes a current-maximum opcode,
accumulating counts until the running total reaches the 35% threshold
(every successful run certifies `35·loc ≤ 100·capacity`), returns the
selection sorted alphabetically, and on the map {A:5, B:3, C:2} with total
10 it selects exactly `["A"]`. -/
theorem C4_frequent_selection :
    (frequentPass ⟨10, 0, [], [], [("A", 5), ("B", 3), ("C", 2)], 0⟩ =
      some (["A"], ⟨10, 0, [], [], [("B", 3), ("C", 2)], 0⟩)) ∧
    (∀ (used : List (String × Nat)) (loc : Nat) r,
      selectFrequent used loc = some r → 35 * loc ≤ 100 * r.2.2) ∧
    (∀ (st : Stats) (out : List String) (st2 : Stats),
      frequentPass st = some (out, st2) → out.Sorted (fun a b => a ≤ b)) := by
  refine ⟨by decide, ?_, ?_⟩
  · intro used loc r h
    unfold selectFrequent at h
    exact selectLoopF_threshold _ _ _ _ _ _ h
  · intro st out st2 h
    unfold frequentPass at h
    split at h
    · cases h
    · cases h
      exact List.sorted_insertionSort _ _

theorem C4_frequent_selection_witness :
    35 * 10 ≤ 100 * 5 ∧ (["A"] : List String).Sorted (fun a b => a ≤ b) :=
  ⟨C4_frequent_selection.2.1 [("A", 5), ("B", 3), ("C", 2)] 10
     (["A"], [("B", 3), ("C", 2)], 5) (by decide),
   C4_frequent_selection.2.2 ⟨10, 0, [], [], [("A", 5), ("B", 3), ("C", 2)], 0⟩
     ["A"] ⟨10, 0, [], [], [("B", 3), ("C", 2)], 0⟩ (by decide)⟩

/-- C5: evaluating the argument check on a duplicated `--stats=out.txt`
destination: no ConfigurationError (exit 12) is raised — the check
compares the length of a set with itself — and in fact this phase can
only fail with the usage error for a bare `--stats`. -/
theorem C5_duplicate_stats_unchecked :
    checkDupStats ["--stats=out.txt", "--loc", "--stats=out.txt"] =
      Except.ok ["out.txt"] ∧
    errCode PErr.configErr = 12 ∧
    (∀ (args : List String) (e : PErr),
      checkDupStats args = Except.error e → e = PErr.usageErr) := by
  refine ⟨by decide, rfl, ?_⟩
  intro args e h
  unfold checkDupStats at h
  split at h
  · rename_i e2 hc
    cases h
    exact collectStats_error _ _ _ hc
  · rename_i files hc
    have hnd : files.Nodup := collectStats_nodup args [] files List.nodup_nil hc
    rw [if_neg (by rw [List.dedup_eq_self.mpr hnd]; simp)] at h
    cases h

theorem C5_duplicate_stats_unchecked_witness : PErr.usageErr = PErr.usageErr :=
  C5_duplicate_stats_unchecked.2.2 ["--stats"] PErr.usageErr (by decide)

/-- C6 counterexample: a run accepting two `MOVE` instructions ends with
frequency map {MOVE: 2}; the `--frequent` post-pass deletes the selected
opcode from the statistics, leaving the map empty — the post-pass mutates
the run statistics. -/
theorem C6_counterexample :
    (okPart (runMain [".IPPcode24", "MOVE GF@a GF@b", "MOVE GF@a GF@b"])).map
        (fun rs => rs.stats.used_instructions) = some [("MOVE", 2)] ∧
    ((okPart (runMain [".IPPcode24", "MOVE GF@a GF@b", "MOVE GF@a GF@b"])).bind
        (fun rs => (frequentPass rs.stats).map (fun p => p.2.used_instructions))) =
      some [] ∧
    ([("MOVE", 2)] : List (String × Nat)) ≠ [] := by decide

/-- C6 (amended): the jump-classification pass only reads the statistics
(it is a pure function of the label and jump maps), and the frequency
post-pass preserves the instruction count, comment count, label map, jump
map and EOL count, but mutates the opcode-frequency map: the map after the
pass is the original with the selected opcodes deleted (a sublist). -/
theorem C6_frequent_mutation_frame (st : Stats) (out : List String) (st2 : Stats)
    (h : frequentPass st = some (out, st2)) :
    st2.loc = st.loc ∧ st2.comments = st.comments ∧ st2.labels = st.labels ∧
    st2.jumps = st.jumps ∧ st2.eol = st.eol ∧
    st2.used_instructions.Sublist st.used_instructions := by
  unfold frequentPass at h
  split at h
  · cases h
  · rename_i r hr
    unfold selectFrequent at hr
    cases h
    exact ⟨rfl, rfl, rfl, rfl, rfl, selectLoopF_sublist _ _ _ _ _ _ hr⟩

theorem C6_frequent_mutation_frame_witness :
    (2 : Nat) = 2 ∧ (0 : Nat) = 0 ∧ ([] : List (String × Nat)) = [] ∧
    ([] : List (String × Nat)) = [] ∧ (3 : Nat) = 3 ∧
    ([] : List (String × Nat)).Sublist [("MOVE", 2)] :=
  C6_frequent_mutation_frame ⟨2, 0, [], [], [("MOVE", 2)], 3⟩ ["MOVE"]
    ⟨2, 0, [], [], [], 3⟩ (by decide)

/-! ### The label/jump maps never contain type keywords -/

theorem hasKey_append (d : List (String × Nat)) (k : String) (v : Nat) (n : String)
    (h : hasKey (d ++ [(k, v)]) n = true) : hasKey d n = true ∨ n = k := by
  unfold hasKey at h
  rw [List.any_append, Bool.or_eq_true] at h
  rcases h with h1 | h1
  · exact Or.inl h1
  · right
    simp at h1
    exact h1.symm

theorem hasKey_dictSet (d : List (String × Nat)) (k : String) (v : Nat) (n : String)
    (h : hasKey (dictSet d k v) n = true) : hasKey d n = true ∨ n = k := by
  unfold dictSet at h
  split_ifs at h with h1
  · left
    unfold hasKey at h ⊢
    rw [List.any_map, List.any_eq_true] at h
    rw [List.any_eq_true]
    obtain ⟨p, hp, hpred⟩ := h
    refine ⟨p, hp, ?_⟩
    simp only [Function.comp] at hpred
    split_ifs at hpred with h2 <;> simpa using hpred
  · exact hasKey_append d k v n h

theorem dict_head_label (op : String) (pats : List String)
    (hop : op = "LABEL" ∨ op ∈ jumpOpcodes)
    (hdict : instruction_dict op = some pats) : pats.head? = some "label" := by
  have hcase : op = "LABEL" ∨ op = "CALL" ∨ op = "JUMP" ∨ op = "JUMPIFEQ" ∨
      op = "JUMPIFNEQ" := by
    rcases hop with h | h
    · exact Or.inl h
    · simp [jumpOpcodes] at h
      tauto
  rcases hcase with rfl | rfl | rfl | rfl | rfl
  · rw [show instruction_dict "LABEL" = some ["label"] from rfl] at hdict
    cases hdict
    rfl
  · rw [show instruction_dict "CALL" = some ["label"] from rfl] at hdict
    cases hdict
    rfl
  · rw [show instruction_dict "JUMP" = some ["label"] from rfl] at hdict
    cases hdict
    rfl
  · rw [show instruction_dict "JUMPIFEQ" = some ["label", "symb", "symb"] from rfl] at hdict
    cases hdict
    rfl
  · rw [show instruction_dict "JUMPIFNEQ" = some ["label", "symb", "symb"] from rfl] at hdict
    cases hdict
    rfl

theorem parse_instruction_labelsOK (op : String) (toks : List Token) (o : Nat)
    (st : Stats) (o1 : Nat) (st1 : Stats) (i : Instr)
    (h : parse_instruction op toks o st = Except.ok (o1, st1, i))
    (htoks : ∀ t ∈ toks, t.token_type = "label" → matchType t.token_value.data = false)
    (hok : labelsOK st) : labelsOK st1 := by
  unfold parse_instruction at h
  split at h
  · cases h
  · rename_i pats hdict
    split at h
    · cases h
    · rename_i u hargs
      unfold print_xml at h
      split at h
      · cases h
      · rename_i st2 hlab
        split at h
        · cases h
        · rename_i st3 hjump
          split at h
          · cases h
          · cases h
            have hok2 : labelsOK st2 := by
              unfold labelStep at hlab
              split_ifs at hlab with hLAB
              · split at hlab
                · cases hlab
                · rename_i t hheadeq
                  split_ifs at hlab with hdup
                  cases hlab
                  obtain ⟨t0, ts0, hteq, htype⟩ :=
                    checkArgs_label_first pats toks u hargs
                      (dict_head_label op pats (Or.inl hLAB) hdict)
                  have ht0 : t = t0 := by
                    rw [hteq] at hheadeq
                    simp at hheadeq
                    exact hheadeq.symm
                  refine ⟨?_, hok.2⟩
                  intro k hk
                  rcases hasKey_append _ _ _ _ hk with hk2 | rfl
                  · exact hok.1 k hk2
                  · refine htoks t ?_ (by rw [ht0]; exact htype)
                    rw [hteq, ht0]
                    exact List.mem_cons_self _ _
              · cases hlab
                exact hok
            unfold jumpStep at hjump
            split_ifs at hjump with hJOP
            · split at hjump
              · cases hjump
              · rename_i t hheadeq
                cases hjump
                refine ⟨hok2.1, ?_⟩
                intro k hk
                rcases hasKey_dictSet _ _ _ _ hk with hk2 | rfl
                · exact hok2.2 k hk2
                · obtain ⟨t0, ts0, hteq, htype⟩ :=
                    checkArgs_label_first pats toks u hargs
                      (dict_head_label op pats (Or.inr hJOP) hdict)
                  have ht0 : t = t0 := by
                    rw [hteq] at hheadeq
                    simp at hheadeq
                    exact hheadeq.symm
                  refine htoks t ?_ (by rw [ht0]; exact htype)
                  rw [hteq, ht0]
                  exact List.mem_cons_self _ _
            · cases hjump
              exact hok2

theorem scanCore_labelsOK (op : String) (argStrs : List (List Char)) (o : Nat)
    (st : Stats) (o1 : Nat) (st1 : Stats) (i : Instr)
    (h : scanCore op argStrs o st = Except.ok (o1, st1, i)) (hok : labelsOK st) :
    labelsOK st1 := by
  unfold scanCore at h
  by_cases h1 : (instruction_dict op).isNone
  · rw [if_pos h1] at h; cases h
  · rw [if_neg h1] at h
    split at h
    · cases h
    · rename_i toks htoks
      refine parse_instruction_labelsOK _ _ _ _ _ _ _ h ?_ hok
      intro t ht hl
      obtain ⟨a, ha, hma⟩ := mapTokens_mem _ _ htoks t ht
      rw [match_pattern_value _ _ hma]
      exact match_pattern_label_not_type _ _ hma hl

theorem instruction_scan_labelsOK (line : List Char) (o : Nat) (st : Stats)
    (o1 : Nat) (st1 : Stats) (oi : Option Instr)
    (h : instruction_scan line o st = Except.ok (o1, st1, oi)) (hok : labelsOK st) :
    labelsOK st1 := by
  unfold instruction_scan at h
  by_cases h1 : line.head? = some '#' ∨ pyStrip line = []
  · rw [if_pos h1] at h
    cases h
    exact hok
  · rw [if_neg h1] at h
    split at h
    · cases h
    · split at h
      · cases h
      · rename_i o2 st2 i h4
        cases h
        have hok2 : labelsOK (match (splitHash line).2 with
            | some _ => incComments st
            | none => st) := by
          cases (splitHash line).2 <;> exact hok
        exact scanCore_labelsOK _ _ _ _ _ _ _ h4 hok2

theorem processLine_labelsOK (l : List Char) (rs rs1 : RunState)
    (h : processLine l rs = Except.ok rs1) (hok : labelsOK rs.stats) :
    labelsOK rs1.stats := by
  unfold processLine at h
  by_cases h1 : rs.firstLine = true
  · rw [if_pos h1] at h
    by_cases h2 : pyStrip l ≠ ".IPPcode24".data
    · rw [if_pos h2] at h; cases h
    · rw [if_neg h2] at h; cases h; exact hok
  · rw [if_neg h1] at h
    by_cases h2 : (pyStrip l).head? = some '#'
    · rw [if_pos h2] at h; cases h; exact hok
    · rw [if_neg h2] at h
      by_cases h3 : pyStrip l = []
      · rw [if_pos h3] at h; cases h; exact hok
      · rw [if_neg h3] at h
        split at h
        · cases h
        · rename_i o1 st1 oi h4
          cases h
          exact instruction_scan_labelsOK _ _ _ _ _ _ h4 hok

theorem runLines_labelsOK (ls : List (List Char)) :
    ∀ rs rs1 : RunState, runLines ls rs = Except.ok rs1 →
      labelsOK rs.stats → labelsOK rs1.stats := by
  induction ls with
  | nil =>
    intro rs rs1 h hok
    cases h
    exact hok
  | cons l rest ih =>
    intro rs rs1 h hok
    unfold runLines at h
    split at h
    · cases h
    · rename_i rsm hm
      exact ih rsm rs1 h (processLine_labelsOK _ _ _ hm hok)

/-- C10: the type-keyword shape is checked before the label shape, so
`int`, `bool`, `string` always classify as type keywords and never as
labels; supplying one of them in the label position of `LABEL`, `CALL`,
`JUMP`, `JUMPIFEQ` or `JUMPIFNEQ` fails with the label role-mismatch
error; consequently no successful run ever has one of these three names as
a key of the label map or of the jump-reference map. -/
theorem C10_type_keywords_never_labels :
    (∀ s : String, s ∈ ["int", "bool", "string"] →
      match_pattern s = Except.ok ⟨"type", s⟩) ∧
    (∀ op : String, op ∈ ["LABEL", "CALL", "JUMP", "JUMPIFEQ", "JUMPIFNEQ"] →
      ∀ (s : String) (rest : List Token) (o : Nat) (st : Stats),
        s ∈ ["int", "bool", "string"] →
        parse_instruction op (⟨"type", s⟩ :: rest) o st =
          Except.error (PErr.roleMismatch "label")) ∧
    (∀ (lines : List String) (rs : RunState), runMain lines = Except.ok rs →
      ∀ n : String, n ∈ ["int", "bool", "string"] →
        hasKey rs.stats.labels n = false ∧ hasKey rs.stats.jumps n = false) := by
  refine ⟨?_, ?_, ?_⟩
  · intro s hs
    simp at hs
    rcases hs with rfl | rfl | rfl <;> decide
  · intro op hop s rest o st hs
    simp at hop
    rcases hop with rfl | rfl | rfl | rfl | rfl <;> rfl
  · intro lines rs h n hn
    have hOK : labelsOK rs.stats := by
      unfold runMain at h
      refine runLines_labelsOK _ _ _ h ?_
      constructor <;>
        (intro k hk
         simp [initState, hasKey] at hk)
    have hmt : matchType n.data = true := by
      simp at hn
      rcases hn with rfl | rfl | rfl <;> decide
    constructor
    · cases hval : hasKey rs.stats.labels n
      · rfl
      · have hcon := hOK.1 n hval
        rw [hmt] at hcon
        cases hcon
    · cases hval : hasKey rs.stats.jumps n
      · rfl
      · have hcon := hOK.2 n hval
        rw [hmt] at hcon
        cases hcon

theorem C10_type_keywords_never_labels_witness :
    match_pattern "int" = Except.ok ⟨"type", "int"⟩ ∧
    parse_instruction "JUMP" [⟨"type", "bool"⟩] 0 ⟨0, 0, [], [], [], 0⟩ =
      Except.error (PErr.roleMismatch "label") ∧
    hasKey ([("ok", 1)] : List (String × Nat)) "string" = false ∧
    hasKey ([] : List (String × Nat)) "string" = false :=
  ⟨C10_type_keywords_never_labels.1 "int" (by decide),
   C10_type_keywords_never_labels.2.1 "JUMP" (by decide) "bool" [] 0
     ⟨0, 0, [], [], [], 0⟩ (by decide),
   C10_type_keywords_never_labels.2.2 [".IPPcode24", "LABEL ok"]
     ⟨1, ⟨1, 0, [("ok", 1)], [], [("LABEL", 1)], 2⟩,
      [⟨1, "LABEL", [("label", "ok")]⟩], false⟩ (by decide) "string" (by decide)⟩
